import Mathlib

/-!
Shallow embedding of the Sprout lexer (src/sprout/token.py and
src/sprout/lexer.py): character classification, the token data model, the
keyword table, Python's `unicode_escape` decoding used by `_read_string`,
and the scanner state machine (`Lexer.__init__`, `_read_char`, `_peek_char`,
`_skip_whitespace`, `_read_identifier`, `_read_number`, `_read_string`,
`next_token`).

Input text is a `List Char`.  Machine state is the four mutable fields of the
Python `Lexer` object.  The Python `while` loops are encoded with an explicit
fuel argument large enough that the fuel never runs out (proved where needed);
this keeps every definition kernel-computable.  A call that raises in Python
(the `decode("unicode_escape")` step of `_read_string`) is modelled as an
`Except.error` result; all state mutations that Python performs before the
raise are still performed.
-/

/-- The end-of-input sentinel: Python's `"\0"` (lexer.py line 16). -/
def nul : Char := '\x00'

/-- Python `str.isalpha`, which is Unicode-aware, modelled exactly on the
code points below 0x100 (Basic Latin and Latin-1 Supplement): the ASCII
letters plus the Latin-1 letters U+00AA, U+00B5, U+00BA, U+00C0-U+00D6,
U+00D8-U+00F6 and U+00F8-U+00FF (exactly the Latin-1 code points whose
Unicode category is Lu/Ll/Lt/Lm/Lo).  Code points at or above 0x100 are not
modelled and are treated as non-alphabetic. -/
def pyIsAlpha (c : Char) : Bool :=
  if (0x41 ≤ c.toNat ∧ c.toNat ≤ 0x5A) ∨ (0x61 ≤ c.toNat ∧ c.toNat ≤ 0x7A) ∨
     c.toNat = 0xAA ∨ c.toNat = 0xB5 ∨ c.toNat = 0xBA ∨
     (0xC0 ≤ c.toNat ∧ c.toNat ≤ 0xD6) ∨ (0xD8 ≤ c.toNat ∧ c.toNat ≤ 0xF6) ∨
     (0xF8 ≤ c.toNat ∧ c.toNat ≤ 0xFF)
  then true else false

/-- Python `str.isdigit`, Unicode-aware, modelled exactly on code points
below 0x100: the ASCII digits plus the Latin-1 superscripts U+00B2, U+00B3
and U+00B9 (for which Python's `isdigit` returns `True`). -/
def pyIsDigit (c : Char) : Bool :=
  if (0x30 ≤ c.toNat ∧ c.toNat ≤ 0x39) ∨ c.toNat = 0xB2 ∨ c.toNat = 0xB3 ∨
     c.toNat = 0xB9
  then true else false

/-- The whitespace test of `Lexer._skip_whitespace`: `self.ch in " \t\n\r"`
(lexer.py line 28). -/
def isSproutWhitespace (c : Char) : Bool :=
  if c = ' ' ∨ c = '\t' ∨ c = '\n' ∨ c = '\r' then true else false

/-!
The token kind constants of `class TokenType` (token.py lines 6-43),
kept as the same string values the Python class uses.
-/

namespace TokenType

def ILLEGAL : String := "ILLEGAL"

def EOF : String := "EOF"

def IDENT : String := "IDENT"

def INT : String := "INT"

def STRING : String := "STRING"

def ASSIGN : String := "="

def PLUS : String := "+"

def MINUS : String := "-"

def BANG : String := "!"

def ASTERISK : String := "*"

def SLASH : String := "/"

def LT : String := "<"

def GT : String := ">"

def EQ : String := "=="

def NOT_EQ : String := "!="

def COMMA : String := ","

def SEMICOLON : String := ";"

def COLON : String := ":"

def LPAREN : String := "("

def RPAREN : String := ")"

def LBRACE : String := "\x7b"

def RBRACE : String := "\x7d"

def LBRACKET : String := "["

def RBRACKET : String := "]"

def FUNCTION : String := "FUNCTION"

def LET : String := "LET"

def TRUE : String := "TRUE"

def FALSE : String := "FALSE"

def IF : String := "IF"

def ELSE : String := "ELSE"

def RETURN : String := "RETURN"

end TokenType

/-- The `@dataclass class Token` of token.py (lines 61-65): kind string,
literal text, and integer source offset. -/
structure Token where
  type : String
  literal : List Char
  position : Nat
  deriving DecidableEq, Repr

/-- `lookup_ident` together with the `KEYWORDS` dict (token.py lines 46-59):
`KEYWORDS.get(ident, TokenType.IDENT)` as a decision chain over the seven
keys. -/
def lookupIdent (ident : List Char) : String :=
  if ident = "fn".toList then TokenType.FUNCTION
  else if ident = "let".toList then TokenType.LET
  else if ident = "true".toList then TokenType.TRUE
  else if ident = "false".toList then TokenType.FALSE
  else if ident = "if".toList then TokenType.IF
  else if ident = "else".toList then TokenType.ELSE
  else if ident = "return".toList then TokenType.RETURN
  else TokenType.IDENT

/-- UTF-8 encoding of one character, as performed by
`bytes(literal, "utf-8")` in `_read_string` (lexer.py line 56). -/
def utf8EncodeChar (c : Char) : List Nat :=
  if c.toNat < 0x80 then [c.toNat]
  else if c.toNat < 0x800 then
    [0xC0 + c.toNat / 0x40, 0x80 + c.toNat % 0x40]
  else if c.toNat < 0x10000 then
    [0xE0 + c.toNat / 0x1000, 0x80 + (c.toNat / 0x40) % 0x40, 0x80 + c.toNat % 0x40]
  else
    [0xF0 + c.toNat / 0x40000, 0x80 + (c.toNat / 0x1000) % 0x40,
     0x80 + (c.toNat / 0x40) % 0x40, 0x80 + c.toNat % 0x40]

/-- UTF-8 encoding of a string: `bytes(literal, "utf-8")`. -/
def utf8Encode : List Char → List Nat
  | [] => []
  | c :: cs => utf8EncodeChar c ++ utf8Encode cs

/-- Value of one hexadecimal digit byte, `none` if the byte is not a hex
digit (used by the `\xXX`, `\uXXXX` and `\UXXXXXXXX` cases of the
`unicode_escape` codec). -/
def hexDigitVal (b : Nat) : Option Nat :=
  if 0x30 ≤ b ∧ b ≤ 0x39 then some (b - 0x30)
  else if 0x41 ≤ b ∧ b ≤ 0x46 then some (b - 0x37)
  else if 0x61 ≤ b ∧ b ≤ 0x66 then some (b - 0x57)
  else none

/-- Read exactly `k` hex digit bytes, accumulating their value big-endian;
`none` if fewer than `k` hex digits are available. -/
def readHexDigits : Nat → Nat → List Nat → Option (Nat × List Nat)
  | 0, acc, rest => some (acc, rest)
  | _ + 1, _, [] => none
  | k + 1, acc, b :: rest =>
    match hexDigitVal b with
    | some v => readHexDigits k (acc * 16 + v) rest
    | none => none

/-- Read up to `k` further octal digit bytes after the first digit of an
octal escape, accumulating the value. -/
def readOctDigits : Nat → Nat → List Nat → Nat × List Nat
  | 0, acc, rest => (acc, rest)
  | _ + 1, acc, [] => (acc, [])
  | k + 1, acc, b :: rest =>
    if 0x30 ≤ b ∧ b ≤ 0x37 then readOctDigits k (acc * 8 + (b - 0x30)) rest
    else (acc, b :: rest)

/-- One pass of Python's `unicode_escape` codec over a byte string
(CPython's `PyUnicode_DecodeUnicodeEscape`), as invoked by
`bytes(literal, "utf-8").decode("unicode_escape")` in `_read_string`
(lexer.py line 56).  A byte that is not a backslash decodes as its Latin-1
character.  After a backslash: a newline is a line continuation (both bytes
dropped); the single-character escapes are backslash, both quotes, and
`a b f n r t v`; `0`-`7` starts an up-to-three-digit octal escape; `\xXX`
requires exactly two hex digits and otherwise raises; `\uXXXX` four and
`\UXXXXXXXX` eight (the latter also raising above U+10FFFF); `\N` requires a
named-character reference, whose name database is not modelled here (no
input in this development contains `\N`), so it is mapped to the raised
error; a trailing lone backslash raises; any other escape is kept verbatim
as backslash plus the character.  A raised `UnicodeDecodeError` is modelled
as `Except.error`.  (Lone-surrogate `\u` escapes, which Lean's `Char`
cannot represent, are not used by any input in this development.)
The fuel argument starts at the byte-list length; every step consumes at
least one byte, so the fuel is never exhausted. -/
def unicodeEscapeAux : Nat → List Nat → Except String (List Char)
  | _, [] => Except.ok []
  | 0, _ :: _ => Except.error "out of fuel"
  | f + 1, b :: rest =>
    if b ≠ 0x5C then
      (unicodeEscapeAux f rest).map (fun tail => Char.ofNat b :: tail)
    else
      match rest with
      | [] => Except.error "backslash at end of string"
      | e :: rest2 =>
        if e = 0x0A then unicodeEscapeAux f rest2
        else if e = 0x5C then
          (unicodeEscapeAux f rest2).map (fun t => Char.ofNat 0x5C :: t)
        else if e = 0x27 then
          (unicodeEscapeAux f rest2).map (fun t => Char.ofNat 0x27 :: t)
        else if e = 0x22 then
          (unicodeEscapeAux f rest2).map (fun t => Char.ofNat 0x22 :: t)
        else if e = 0x62 then
          (unicodeEscapeAux f rest2).map (fun t => Char.ofNat 0x08 :: t)
        else if e = 0x66 then
          (unicodeEscapeAux f rest2).map (fun t => Char.ofNat 0x0C :: t)
        else if e = 0x74 then
          (unicodeEscapeAux f rest2).map (fun t => Char.ofNat 0x09 :: t)
        else if e = 0x6E then
          (unicodeEscapeAux f rest2).map (fun t => Char.ofNat 0x0A :: t)
        else if e = 0x72 then
          (unicodeEscapeAux f rest2).map (fun t => Char.ofNat 0x0D :: t)
        else if e = 0x76 then
          (unicodeEscapeAux f rest2).map (fun t => Char.ofNat 0x0B :: t)
        else if e = 0x61 then
          (unicodeEscapeAux f rest2).map (fun t => Char.ofNat 0x07 :: t)
        else if 0x30 ≤ e ∧ e ≤ 0x37 then
          (unicodeEscapeAux f (readOctDigits 2 (e - 0x30) rest2).2).map
            (fun t => Char.ofNat (readOctDigits 2 (e - 0x30) rest2).1 :: t)
        else if e = 0x78 then
          match readHexDigits 2 0 rest2 with
          | some vr => (unicodeEscapeAux f vr.2).map (fun t => Char.ofNat vr.1 :: t)
          | none => Except.error "truncated hex escape"
        else if e = 0x75 then
          match readHexDigits 4 0 rest2 with
          | some vr => (unicodeEscapeAux f vr.2).map (fun t => Char.ofNat vr.1 :: t)
          | none => Except.error "truncated unicode escape"
        else if e = 0x55 then
          match readHexDigits 8 0 rest2 with
          | some vr =>
            if vr.1 ≤ 0x10FFFF then
              (unicodeEscapeAux f vr.2).map (fun t => Char.ofNat vr.1 :: t)
            else Except.error "illegal unicode character"
          | none => Except.error "truncated unicode escape"
        else if e = 0x4E then Except.error "malformed named escape"
        else
          (unicodeEscapeAux f rest2).map
            (fun t => Char.ofNat 0x5C :: Char.ofNat e :: t)

/-- `bytes.decode("unicode_escape")` on a byte string. -/
def unicodeEscapeDecode (bs : List Nat) : Except String (List Char) :=
  unicodeEscapeAux bs.length bs

/-- The mutable state of `class Lexer` (lexer.py lines 7-13): the input
text, the current-character index `position`, the lookahead index
`read_position`, and the current character `ch`. -/
structure Lexer where
  input_text : List Char
  position : Nat
  read_position : Nat
  ch : Char
  deriving DecidableEq, Repr

/-- `Lexer._read_char` (lexer.py lines 14-20): refresh `ch` from
`input_text[read_position]`, or to the sentinel once `read_position` is at
or past the input length; then `position = read_position` and
`read_position += 1`. -/
def readChar (l : Lexer) : Lexer :=
  { l with
    ch := if l.input_text.length ≤ l.read_position then nul
          else l.input_text.getD l.read_position nul,
    position := l.read_position,
    read_position := l.read_position + 1 }

/-- `Lexer._peek_char` (lexer.py lines 22-25). -/
def peekChar (l : Lexer) : Char :=
  if l.input_text.length ≤ l.read_position then nul
  else l.input_text.getD l.read_position nul

/-- `Lexer.__init__` (lexer.py lines 8-13): zero both cursors and perform
the initial `_read_char` (the initial value of `ch` before that call is
never read, so the sentinel stands in for Python's `""`). -/
def mkLexer (input : List Char) : Lexer :=
  readChar { input_text := input, position := 0, read_position := 0, ch := nul }

/-- Fuel-indexed encoding of the `while p(self.ch): self._read_char()` loop
shape shared by `_skip_whitespace`, `_read_identifier` and `_read_number`. -/
def charLoopAux (p : Char → Bool) : Nat → Lexer → Lexer
  | 0, l => l
  | f + 1, l => if p l.ch then charLoopAux p f (readChar l) else l

/-- The `while p(self.ch): self._read_char()` loop with enough fuel that it
never runs out: each iteration increments `read_position`, and once
`read_position` reaches the input length the current character is the
sentinel, which no loop predicate used by the lexer accepts. -/
def charLoop (p : Char → Bool) (l : Lexer) : Lexer :=
  charLoopAux p (l.input_text.length + 2) l

/-- `Lexer._skip_whitespace` (lexer.py lines 27-29). -/
def skipWhitespace (l : Lexer) : Lexer := charLoop isSproutWhitespace l

/-- The loop condition of `_read_identifier` (lexer.py line 33):
`self.ch.isalpha() or self.ch == "_" or self.ch.isdigit()`. -/
def identCond (c : Char) : Bool := pyIsAlpha c || c = '_' || pyIsDigit c

/-- Python slice `s[a:b]` for non-negative indices (clamping at the ends
exactly as Python does). -/
def pySlice (s : List Char) (a b : Nat) : List Char := (s.take b).drop a

/-- `Lexer._read_identifier` (lexer.py lines 31-35): remember `start`,
consume the maximal run of identifier characters, return
`input_text[start:position]` together with the mutated state. -/
def readIdentifier (l : Lexer) : List Char × Lexer :=
  (pySlice l.input_text l.position (charLoop identCond l).position,
   charLoop identCond l)

/-- `Lexer._read_number` (lexer.py lines 37-41). -/
def readNumber (l : Lexer) : List Char × Lexer :=
  (pySlice l.input_text l.position (charLoop pyIsDigit l).position,
   charLoop pyIsDigit l)

/-- The escape-pair lookahead set of `_read_string` (lexer.py line 48):
`['"', "\\", "n", "t", "r"]`. -/
def escapePairChars : List Char := ['\x22', '\\', 'n', 't', 'r']

/-- Fuel-indexed encoding of the scan loop of `_read_string` (lexer.py
lines 46-51): while the current character is neither the closing quote nor
the sentinel, consume an extra character when the current character is a
backslash whose lookahead is in the escape-pair set, then consume one
character. -/
def readStringLoopAux : Nat → Lexer → Lexer
  | 0, l => l
  | f + 1, l =>
    if l.ch ≠ '\x22' ∧ l.ch ≠ nul then
      readStringLoopAux f
        (readChar (if l.ch = '\\' ∧ peekChar l ∈ escapePairChars then readChar l else l))
    else l

/-- The scan loop of `_read_string` with enough fuel that it never runs
out (each iteration increments `read_position` at least once, and the loop
stops at the sentinel). -/
def readStringLoop (l : Lexer) : Lexer :=
  readStringLoopAux (l.input_text.length + 2) l

/-- `Lexer._read_string` (lexer.py lines 43-56): step past the opening
quote, remember `start`, run the scan loop, slice the raw span, step past
the closing quote, and decode the raw span with
`bytes(literal, "utf-8").decode("unicode_escape")`.  The decode step can
raise in Python; that exceptional outcome is the `Except.error` case of the
first component, and the state component carries all the cursor mutations,
which Python has already performed when the decode raises. -/
def readString (l : Lexer) : Except String (List Char) × Lexer :=
  (unicodeEscapeDecode (utf8Encode
     (pySlice (readChar l).input_text (readChar l).position
       (readStringLoop (readChar l)).position)),
   readChar (readStringLoop (readChar l)))

/-- The dispatch chain of `Lexer.next_token` after the whitespace skip
(lexer.py lines 61-155), in the source's branch order: `=` (with `==`
lookahead), the single-character punctuation, `!` (with `!=` lookahead),
the remaining single-character operators and brackets, the string literal,
the end-of-input sentinel, identifiers/keywords, integer literals, and the
illegal-character fallback. -/
def dispatchToken (l : Lexer) : Except String Token × Lexer :=
  if l.ch = '=' then
    if peekChar l = '=' then
      (Except.ok ⟨TokenType.EQ, [l.ch, (readChar l).ch], (readChar l).position⟩,
       readChar (readChar l))
    else (Except.ok ⟨TokenType.ASSIGN, [l.ch], l.position⟩, readChar l)
  else if l.ch = ';' then
    (Except.ok ⟨TokenType.SEMICOLON, [l.ch], l.position⟩, readChar l)
  else if l.ch = ',' then
    (Except.ok ⟨TokenType.COMMA, [l.ch], l.position⟩, readChar l)
  else if l.ch = ':' then
    (Except.ok ⟨TokenType.COLON, [l.ch], l.position⟩, readChar l)
  else if l.ch = '+' then
    (Except.ok ⟨TokenType.PLUS, [l.ch], l.position⟩, readChar l)
  else if l.ch = '-' then
    (Except.ok ⟨TokenType.MINUS, [l.ch], l.position⟩, readChar l)
  else if l.ch = '!' then
    if peekChar l = '=' then
      (Except.ok ⟨TokenType.NOT_EQ, [l.ch, (readChar l).ch], (readChar l).position⟩,
       readChar (readChar l))
    else (Except.ok ⟨TokenType.BANG, [l.ch], l.position⟩, readChar l)
  else if l.ch = '/' then
    (Except.ok ⟨TokenType.SLASH, [l.ch], l.position⟩, readChar l)
  else if l.ch = '*' then
    (Except.ok ⟨TokenType.ASTERISK, [l.ch], l.position⟩, readChar l)
  else if l.ch = '<' then
    (Except.ok ⟨TokenType.LT, [l.ch], l.position⟩, readChar l)
  else if l.ch = '>' then
    (Except.ok ⟨TokenType.GT, [l.ch], l.position⟩, readChar l)
  else if l.ch = '(' then
    (Except.ok ⟨TokenType.LPAREN, [l.ch], l.position⟩, readChar l)
  else if l.ch = ')' then
    (Except.ok ⟨TokenType.RPAREN, [l.ch], l.position⟩, readChar l)
  else if l.ch = Char.ofNat 0x7B then
    (Except.ok ⟨TokenType.LBRACE, [l.ch], l.position⟩, readChar l)
  else if l.ch = Char.ofNat 0x7D then
    (Except.ok ⟨TokenType.RBRACE, [l.ch], l.position⟩, readChar l)
  else if l.ch = '[' then
    (Except.ok ⟨TokenType.LBRACKET, [l.ch], l.position⟩, readChar l)
  else if l.ch = ']' then
    (Except.ok ⟨TokenType.RBRACKET, [l.ch], l.position⟩, readChar l)
  else if l.ch = '\x22' then
    ((readString l).1.map
       (fun lit => Token.mk TokenType.STRING lit (readString l).2.position),
     (readString l).2)
  else if l.ch = nul then
    (Except.ok ⟨TokenType.EOF, [], l.position⟩, l)
  else if pyIsAlpha l.ch = true ∨ l.ch = '_' then
    (Except.ok ⟨lookupIdent (readIdentifier l).1, (readIdentifier l).1,
       (readIdentifier l).2.position⟩,
     (readIdentifier l).2)
  else if pyIsDigit l.ch = true then
    (Except.ok ⟨TokenType.INT, (readNumber l).1, (readNumber l).2.position⟩,
     (readNumber l).2)
  else
    (Except.ok ⟨TokenType.ILLEGAL, [l.ch], l.position⟩, readChar l)

/-- `Lexer.next_token` (lexer.py lines 58-155): skip insignificant
whitespace, then dispatch on the current character. -/
def nextToken (l : Lexer) : Except String Token × Lexer :=
  dispatchToken (skipWhitespace l)

/-- The scanner state after `n` calls to `next_token`. -/
def nthState (l : Lexer) : Nat → Lexer
  | 0 => l
  | n + 1 => nthState (nextToken l).2 n

/-- The results of the first `n` calls to `next_token`. -/
def lexResults (l : Lexer) : Nat → List (Except String Token)
  | 0 => []
  | n + 1 => (nextToken l).1 :: lexResults (nextToken l).2 n

/-- The reachable-state invariant of the scanner: the input is fixed, the
lookahead cursor sits one past the current cursor, and the current
character is `input[position]`, or the sentinel once the cursor is at or
past the input length (spec section 3's scanner invariant).  It is
established by `_read_char` and hence by construction, and preserved by
every operation. -/
def LexInv (input : List Char) (l : Lexer) : Prop :=
  l.input_text = input ∧ l.read_position = l.position + 1 ∧
    l.ch = if l.position < input.length then input.getD l.position nul else nul

theorem readChar_input (l : Lexer) : (readChar l).input_text = l.input_text := rfl

theorem readChar_pos (l : Lexer) : (readChar l).position = l.read_position := rfl

theorem readChar_ch_eq_peek (l : Lexer) : (readChar l).ch = peekChar l := rfl

theorem lexInv_readChar {input : List Char} {l : Lexer} (h : l.input_text = input) :
    LexInv input (readChar l) := by
  subst h
  refine ⟨rfl, rfl, ?_⟩
  show (if l.input_text.length ≤ l.read_position then nul
        else l.input_text.getD l.read_position nul) =
    if l.read_position < l.input_text.length then l.input_text.getD l.read_position nul
    else nul
  split_ifs with h1 h2 <;> first | rfl | omega

theorem lexInv_pos_readChar {input : List Char} {l : Lexer} (h : LexInv input l) :
    (readChar l).position = l.position + 1 := h.2.1

theorem lexInv_pos_lt {input : List Char} {l : Lexer} (h : LexInv input l)
    (hne : l.ch ≠ nul) : l.position < input.length := by
  rcases h with ⟨-, -, hch⟩
  by_contra hc
  rw [if_neg hc] at hch
  exact hne hch

theorem lexInv_ch_nul {input : List Char} {l : Lexer} (h : LexInv input l)
    (hge : input.length ≤ l.position) : l.ch = nul := by
  rcases h with ⟨-, -, hch⟩
  rw [hch, if_neg (by omega)]

theorem peek_ne_nul_lt {l : Lexer} (h : peekChar l ≠ nul) :
    l.read_position < l.input_text.length := by
  by_contra hc
  exact h (by rw [peekChar, if_pos (by omega)])

theorem getD_mem_of_lt {α : Type} (xs : List α) (i : Nat) (d : α) (h : i < xs.length) :
    xs.getD i d ∈ xs := by
  induction xs generalizing i with
  | nil => simp at h
  | cons x xs ih =>
    cases i with
    | zero => simp
    | succ i =>
      simp only [List.getD_cons_succ]
      exact List.mem_cons_of_mem x (ih i (by simpa using h))

theorem charLoopAux_succ (p : Char → Bool) (f : Nat) (l : Lexer) :
    charLoopAux p (f + 1) l = if p l.ch then charLoopAux p f (readChar l) else l := rfl

theorem charLoopAux_input (p : Char → Bool) : ∀ (f : Nat) (l : Lexer),
    (charLoopAux p f l).input_text = l.input_text := by
  intro f
  induction f with
  | zero => intro l; rfl
  | succ f ih =>
    intro l
    rw [charLoopAux_succ]
    split
    · rw [ih]; rfl
    · rfl

theorem charLoopAux_inv (p : Char → Bool) (input : List Char) : ∀ (f : Nat) (l : Lexer),
    LexInv input l → LexInv input (charLoopAux p f l) := by
  intro f
  induction f with
  | zero => intro l h; exact h
  | succ f ih =>
    intro l h
    rw [charLoopAux_succ]
    split
    · exact ih _ (lexInv_readChar h.1)
    · exact h

theorem charLoopAux_posmono (p : Char → Bool) (input : List Char) : ∀ (f : Nat) (l : Lexer),
    LexInv input l → l.position ≤ (charLoopAux p f l).position := by
  intro f
  induction f with
  | zero => intro l _; exact le_refl _
  | succ f ih =>
    intro l h
    rw [charLoopAux_succ]
    split
    · have h2 := ih _ (lexInv_readChar h.1)
      rw [readChar_pos, h.2.1] at h2
      omega
    · exact le_refl _

theorem charLoopAux_posle (p : Char → Bool) (input : List Char) (hp0 : p nul = false) :
    ∀ (f : Nat) (l : Lexer), LexInv input l → l.position ≤ input.length →
      (charLoopAux p f l).position ≤ input.length := by
  intro f
  induction f with
  | zero => intro l _ hle; exact hle
  | succ f ih =>
    intro l h hle
    rw [charLoopAux_succ]
    split
    · rename_i hp
      have hne : l.ch ≠ nul := by intro he; simp [he, hp0] at hp
      have hlt : l.position < input.length := lexInv_pos_lt h hne
      refine ih _ (lexInv_readChar h.1) ?_
      rw [readChar_pos, h.2.1]
      omega
    · exact hle

theorem charLoopAux_guard (p : Char → Bool) (input : List Char) (hp0 : p nul = false) :
    ∀ (f : Nat) (l : Lexer), LexInv input l → input.length ≤ f + l.position →
      p (charLoopAux p f l).ch = false := by
  intro f
  induction f with
  | zero =>
    intro l h hle
    rw [charLoopAux, lexInv_ch_nul h (by omega)]
    exact hp0
  | succ f ih =>
    intro l h hle
    rw [charLoopAux_succ]
    split
    · rename_i hp
      have hne : l.ch ≠ nul := by intro he; simp [he, hp0] at hp
      have hlt : l.position < input.length := lexInv_pos_lt h hne
      refine ih _ (lexInv_readChar h.1) ?_
      rw [readChar_pos, h.2.1]
      omega
    · rename_i hp
      simpa using hp

theorem charLoopAux_fix (p : Char → Bool) (f : Nat) (l : Lexer) (hp : p l.ch = false) :
    charLoopAux p f l = l := by
  cases f with
  | zero => rfl
  | succ f => rw [charLoopAux_succ, if_neg (by simp [hp])]

theorem charLoop_input (p : Char → Bool) (l : Lexer) :
    (charLoop p l).input_text = l.input_text := charLoopAux_input p _ l

theorem charLoop_inv {p : Char → Bool} {input : List Char} {l : Lexer}
    (h : LexInv input l) : LexInv input (charLoop p l) := charLoopAux_inv p input _ l h

theorem charLoop_posmono {p : Char → Bool} {input : List Char} {l : Lexer}
    (h : LexInv input l) : l.position ≤ (charLoop p l).position :=
  charLoopAux_posmono p input _ l h

theorem charLoop_posle {p : Char → Bool} {input : List Char} {l : Lexer}
    (hp0 : p nul = false) (h : LexInv input l) (hle : l.position ≤ input.length) :
    (charLoop p l).position ≤ input.length := charLoopAux_posle p input hp0 _ l h hle

theorem charLoop_guard {p : Char → Bool} {input : List Char} {l : Lexer}
    (hp0 : p nul = false) (h : LexInv input l) : p (charLoop p l).ch = false :=
  charLoopAux_guard p input hp0 _ l h (by rw [h.1]; omega)

theorem charLoop_fix {p : Char → Bool} {l : Lexer} (hp : p l.ch = false) :
    charLoop p l = l := charLoopAux_fix p _ l hp

theorem charLoop_progress {p : Char → Bool} {input : List Char} {l : Lexer}
    (h : LexInv input l) (hp : p l.ch = true) :
    l.position + 1 ≤ (charLoop p l).position := by
  have hstep : charLoop p l = charLoopAux p (l.input_text.length + 1) (readChar l) := by
    show charLoopAux p (l.input_text.length + 1 + 1) l = _
    rw [charLoopAux_succ, if_pos hp]
  rw [hstep]
  have h2 := charLoopAux_posmono p input (l.input_text.length + 1) _ (lexInv_readChar h.1)
  rw [readChar_pos, h.2.1] at h2
  exact h2

theorem readStringLoopAux_succ (f : Nat) (l : Lexer) :
    readStringLoopAux (f + 1) l =
      if l.ch ≠ '\x22' ∧ l.ch ≠ nul then
        readStringLoopAux f
          (readChar (if l.ch = '\\' ∧ peekChar l ∈ escapePairChars then readChar l else l))
      else l := rfl

theorem strBody_input (l : Lexer) :
    (readChar (if l.ch = '\\' ∧ peekChar l ∈ escapePairChars then readChar l
               else l)).input_text = l.input_text := by
  split <;> rfl

theorem strBody_rp {input : List Char} {l : Lexer} (h : LexInv input l) :
    l.position + 1 ≤
      (readChar (if l.ch = '\\' ∧ peekChar l ∈ escapePairChars then readChar l
                 else l)).position := by
  have h21 := h.2.1
  rw [readChar_pos]
  split
  · show l.position + 1 ≤ l.read_position + 1
    omega
  · omega

theorem strBody_pos_le {input : List Char} {l : Lexer} (h : LexInv input l)
    (hg : l.ch ≠ '\x22' ∧ l.ch ≠ nul) :
    (readChar (if l.ch = '\\' ∧ peekChar l ∈ escapePairChars then readChar l
               else l)).position ≤ input.length := by
  have hlt : l.position < input.length := lexInv_pos_lt h hg.2
  rw [readChar_pos]
  split
  · rename_i hc
    have hpk : peekChar l ≠ nul := by
      intro he
      rw [he] at hc
      exact absurd hc.2 (by decide)
    have := peek_ne_nul_lt hpk
    rw [h.1] at this
    show l.read_position + 1 ≤ input.length
    omega
  · rw [h.2.1]
    omega

theorem strLoopAux_input : ∀ (f : Nat) (l : Lexer),
    (readStringLoopAux f l).input_text = l.input_text := by
  intro f
  induction f with
  | zero => intro l; rfl
  | succ f ih =>
    intro l
    rw [readStringLoopAux_succ]
    split
    · rw [ih]; exact strBody_input l
    · rfl

theorem strLoopAux_inv (input : List Char) : ∀ (f : Nat) (l : Lexer),
    LexInv input l → LexInv input (readStringLoopAux f l) := by
  intro f
  induction f with
  | zero => intro l h; exact h
  | succ f ih =>
    intro l h
    rw [readStringLoopAux_succ]
    split
    · exact ih _ (lexInv_readChar (by split <;> exact h.1))
    · exact h

theorem strLoopAux_posmono (input : List Char) : ∀ (f : Nat) (l : Lexer),
    LexInv input l → l.position ≤ (readStringLoopAux f l).position := by
  intro f
  induction f with
  | zero => intro l _; exact le_refl _
  | succ f ih =>
    intro l h
    rw [readStringLoopAux_succ]
    split
    · have hinv1 : LexInv input
          (readChar (if l.ch = '\\' ∧ peekChar l ∈ escapePairChars then readChar l
                     else l)) := lexInv_readChar (by split <;> exact h.1)
      have h2 := ih _ hinv1
      have h3 := strBody_rp h
      omega
    · exact le_refl _

theorem strLoopAux_posle (input : List Char) : ∀ (f : Nat) (l : Lexer),
    LexInv input l → l.position ≤ input.length →
      (readStringLoopAux f l).position ≤ input.length := by
  intro f
  induction f with
  | zero => intro l _ hle; exact hle
  | succ f ih =>
    intro l h hle
    rw [readStringLoopAux_succ]
    split
    · rename_i hg
      exact ih _ (lexInv_readChar (by split <;> exact h.1))
        (strBody_pos_le h hg)
    · exact hle

theorem strLoopAux_guard (input : List Char) : ∀ (f : Nat) (l : Lexer),
    LexInv input l → input.length ≤ f + l.position →
      ¬((readStringLoopAux f l).ch ≠ '\x22' ∧ (readStringLoopAux f l).ch ≠ nul) := by
  intro f
  induction f with
  | zero =>
    intro l h hle
    rw [readStringLoopAux]
    intro hg
    exact hg.2 (lexInv_ch_nul h (by omega))
  | succ f ih =>
    intro l h hle
    rw [readStringLoopAux_succ]
    split
    · have h3 := strBody_rp h
      refine ih _ (lexInv_readChar (by split <;> exact h.1)) ?_
      omega
    · rename_i hg
      exact hg

theorem strLoop_input (l : Lexer) : (readStringLoop l).input_text = l.input_text :=
  strLoopAux_input _ l

theorem strLoop_inv {input : List Char} {l : Lexer} (h : LexInv input l) :
    LexInv input (readStringLoop l) := strLoopAux_inv input _ l h

theorem strLoop_posmono {input : List Char} {l : Lexer} (h : LexInv input l) :
    l.position ≤ (readStringLoop l).position := strLoopAux_posmono input _ l h

theorem strLoop_posle {input : List Char} {l : Lexer} (h : LexInv input l)
    (hle : l.position ≤ input.length) : (readStringLoop l).position ≤ input.length :=
  strLoopAux_posle input _ l h hle

theorem strLoop_guard {input : List Char} {l : Lexer} (h : LexInv input l) :
    ¬((readStringLoop l).ch ≠ '\x22' ∧ (readStringLoop l).ch ≠ nul) :=
  strLoopAux_guard input _ l h (by rw [h.1]; omega)

theorem strLoop_end_pos {input : List Char} {l : Lexer} (h : LexInv input l)
    (hle : l.position ≤ input.length) (hnul : (readStringLoop l).ch = nul)
    (hnn : nul ∉ input) : (readStringLoop l).position = input.length := by
  have hinv := strLoop_inv h
  have hle2 := strLoop_posle h hle
  rcases hinv with ⟨-, -, hch⟩
  by_cases hlt : (readStringLoop l).position < input.length
  · rw [if_pos hlt] at hch
    rw [hnul] at hch
    exact absurd (hch ▸ getD_mem_of_lt input _ nul hlt) hnn
  · omega

theorem punct_step {input : List Char} {l : Lexer} (hI : LexInv input l)
    (hne : l.ch ≠ nul) :
    LexInv input (readChar l) ∧ (readChar l).position ≤ input.length + 1 ∧
      (l.ch = nul ∨ l.position < (readChar l).position) := by
  have hlt := lexInv_pos_lt hI hne
  have h21 := hI.2.1
  refine ⟨lexInv_readChar hI.1, ?_, Or.inr ?_⟩ <;> rw [readChar_pos] <;> omega

theorem twochar_step {input : List Char} {l : Lexer} (hI : LexInv input l)
    (_hne : l.ch ≠ nul) (hpk : peekChar l ≠ nul) :
    LexInv input (readChar (readChar l)) ∧
      (readChar (readChar l)).position ≤ input.length + 1 ∧
      (l.ch = nul ∨ l.position < (readChar (readChar l)).position) := by
  have hlt := peek_ne_nul_lt hpk
  rw [hI.1] at hlt
  have h21 := hI.2.1
  refine ⟨lexInv_readChar hI.1, ?_, Or.inr ?_⟩ <;>
    rw [readChar_pos, show (readChar l).read_position = l.read_position + 1 from rfl] <;>
    omega

theorem string_step {input : List Char} {l : Lexer} (hI : LexInv input l)
    (hne : l.ch ≠ nul) :
    LexInv input (readString l).2 ∧ (readString l).2.position ≤ input.length + 1 ∧
      (l.ch = nul ∨ l.position < (readString l).2.position) := by
  have hlt := lexInv_pos_lt hI hne
  have hinv1 : LexInv input (readChar l) := lexInv_readChar hI.1
  have hpos1 : (readChar l).position = l.position + 1 := hI.2.1
  have hinv2 : LexInv input (readStringLoop (readChar l)) := strLoop_inv hinv1
  have hmono : (readChar l).position ≤ (readStringLoop (readChar l)).position :=
    strLoop_posmono hinv1
  have hle2 : (readStringLoop (readChar l)).position ≤ input.length :=
    strLoop_posle hinv1 (by omega)
  have h221 := hinv2.2.1
  refine ⟨lexInv_readChar hinv2.1, ?_, Or.inr ?_⟩
  · show (readChar (readStringLoop (readChar l))).position ≤ input.length + 1
    rw [readChar_pos]
    omega
  · show l.position < (readChar (readStringLoop (readChar l))).position
    rw [readChar_pos]
    omega

theorem loop_step {p : Char → Bool} {input : List Char} {l : Lexer}
    (hp0 : p nul = false) (hI : LexInv input l) (hg : p l.ch = true) :
    LexInv input (charLoop p l) ∧ (charLoop p l).position ≤ input.length + 1 ∧
      (l.ch = nul ∨ l.position < (charLoop p l).position) := by
  have hne : l.ch ≠ nul := by intro he; rw [he, hp0] at hg; exact Bool.noConfusion hg
  have hlt := lexInv_pos_lt hI hne
  have hle := charLoop_posle hp0 hI (by omega)
  have hpr := charLoop_progress hI hg
  exact ⟨charLoop_inv hI, by omega, Or.inr (by omega)⟩

theorem dispatch_eq_pair {l : Lexer} (h1 : l.ch = '=') (h2 : peekChar l = '=') :
    dispatchToken l =
      (Except.ok ⟨TokenType.EQ, [l.ch, (readChar l).ch], (readChar l).position⟩,
       readChar (readChar l)) := by
  unfold dispatchToken
  rw [h1, if_pos rfl, if_pos h2]

theorem dispatch_assign {l : Lexer} (h1 : l.ch = '=') (h2 : peekChar l ≠ '=') :
    dispatchToken l =
      (Except.ok ⟨TokenType.ASSIGN, [l.ch], l.position⟩, readChar l) := by
  unfold dispatchToken
  rw [h1, if_pos rfl, if_neg h2]

theorem dispatch_semicolon {l : Lexer} (h : l.ch = ';') :
    dispatchToken l =
      (Except.ok ⟨TokenType.SEMICOLON, [l.ch], l.position⟩, readChar l) := by
  unfold dispatchToken
  rw [h]
  simp only [nul, Char.reduceEq, reduceIte]

theorem dispatch_comma {l : Lexer} (h : l.ch = ',') :
    dispatchToken l =
      (Except.ok ⟨TokenType.COMMA, [l.ch], l.position⟩, readChar l) := by
  unfold dispatchToken
  rw [h]
  simp only [nul, Char.reduceEq, reduceIte]

theorem dispatch_colon {l : Lexer} (h : l.ch = ':') :
    dispatchToken l =
      (Except.ok ⟨TokenType.COLON, [l.ch], l.position⟩, readChar l) := by
  unfold dispatchToken
  rw [h]
  simp only [nul, Char.reduceEq, reduceIte]

theorem dispatch_plus {l : Lexer} (h : l.ch = '+') :
    dispatchToken l =
      (Except.ok ⟨TokenType.PLUS, [l.ch], l.position⟩, readChar l) := by
  unfold dispatchToken
  rw [h]
  simp only [nul, Char.reduceEq, reduceIte]

theorem dispatch_minus {l : Lexer} (h : l.ch = '-') :
    dispatchToken l =
      (Except.ok ⟨TokenType.MINUS, [l.ch], l.position⟩, readChar l) := by
  unfold dispatchToken
  rw [h]
  simp only [nul, Char.reduceEq, reduceIte]

theorem dispatch_bang_pair {l : Lexer} (h1 : l.ch = '!') (h2 : peekChar l = '=') :
    dispatchToken l =
      (Except.ok ⟨TokenType.NOT_EQ, [l.ch, (readChar l).ch], (readChar l).position⟩,
       readChar (readChar l)) := by
  unfold dispatchToken
  rw [h1]
  simp only [nul, Char.reduceEq, reduceIte]
  rw [if_pos h2]

theorem dispatch_bang {l : Lexer} (h1 : l.ch = '!') (h2 : peekChar l ≠ '=') :
    dispatchToken l =
      (Except.ok ⟨TokenType.BANG, [l.ch], l.position⟩, readChar l) := by
  unfold dispatchToken
  rw [h1]
  simp only [nul, Char.reduceEq, reduceIte]
  rw [if_neg h2]

theorem dispatch_slash {l : Lexer} (h : l.ch = '/') :
    dispatchToken l =
      (Except.ok ⟨TokenType.SLASH, [l.ch], l.position⟩, readChar l) := by
  unfold dispatchToken
  rw [h]
  simp only [nul, Char.reduceEq, reduceIte]

theorem dispatch_asterisk {l : Lexer} (h : l.ch = '*') :
    dispatchToken l =
      (Except.ok ⟨TokenType.ASTERISK, [l.ch], l.position⟩, readChar l) := by
  unfold dispatchToken
  rw [h]
  simp only [nul, Char.reduceEq, reduceIte]

theorem dispatch_lt {l : Lexer} (h : l.ch = '<') :
    dispatchToken l =
      (Except.ok ⟨TokenType.LT, [l.ch], l.position⟩, readChar l) := by
  unfold dispatchToken
  rw [h]
  simp only [nul, Char.reduceEq, reduceIte]

theorem dispatch_gt {l : Lexer} (h : l.ch = '>') :
    dispatchToken l =
      (Except.ok ⟨TokenType.GT, [l.ch], l.position⟩, readChar l) := by
  unfold dispatchToken
  rw [h]
  simp only [nul, Char.reduceEq, reduceIte]

theorem dispatch_lparen {l : Lexer} (h : l.ch = '(') :
    dispatchToken l =
      (Except.ok ⟨TokenType.LPAREN, [l.ch], l.position⟩, readChar l) := by
  unfold dispatchToken
  rw [h]
  simp only [nul, Char.reduceEq, reduceIte]

theorem dispatch_rparen {l : Lexer} (h : l.ch = ')') :
    dispatchToken l =
      (Except.ok ⟨TokenType.RPAREN, [l.ch], l.position⟩, readChar l) := by
  unfold dispatchToken
  rw [h]
  simp only [nul, Char.reduceEq, reduceIte]

theorem dispatch_lbrace {l : Lexer} (h : l.ch = Char.ofNat 0x7B) :
    dispatchToken l =
      (Except.ok ⟨TokenType.LBRACE, [l.ch], l.position⟩, readChar l) := by
  unfold dispatchToken
  rw [h]
  simp only [nul, Char.reduceEq, reduceIte]

theorem dispatch_rbrace {l : Lexer} (h : l.ch = Char.ofNat 0x7D) :
    dispatchToken l =
      (Except.ok ⟨TokenType.RBRACE, [l.ch], l.position⟩, readChar l) := by
  unfold dispatchToken
  rw [h]
  simp only [nul, Char.reduceEq, reduceIte]

theorem dispatch_lbracket {l : Lexer} (h : l.ch = '[') :
    dispatchToken l =
      (Except.ok ⟨TokenType.LBRACKET, [l.ch], l.position⟩, readChar l) := by
  unfold dispatchToken
  rw [h]
  simp only [nul, Char.reduceEq, reduceIte]

theorem dispatch_rbracket {l : Lexer} (h : l.ch = ']') :
    dispatchToken l =
      (Except.ok ⟨TokenType.RBRACKET, [l.ch], l.position⟩, readChar l) := by
  unfold dispatchToken
  rw [h]
  simp only [nul, Char.reduceEq, reduceIte]

theorem dispatch_string {l : Lexer} (h : l.ch = '\x22') :
    dispatchToken l =
      ((readString l).1.map
         (fun lit => Token.mk TokenType.STRING lit (readString l).2.position),
       (readString l).2) := by
  unfold dispatchToken
  rw [h]
  simp only [nul, Char.reduceEq, reduceIte]

theorem dispatch_nulch {l : Lexer} (h : l.ch = nul) :
    dispatchToken l = (Except.ok ⟨TokenType.EOF, [], l.position⟩, l) := by
  unfold dispatchToken
  rw [h]
  simp only [nul, Char.reduceEq, reduceIte]

theorem dispatch_ident {l : Lexer} (n1 : l.ch ≠ '=') (n2 : l.ch ≠ ';')
    (n3 : l.ch ≠ ',') (n4 : l.ch ≠ ':') (n5 : l.ch ≠ '+') (n6 : l.ch ≠ '-')
    (n7 : l.ch ≠ '!') (n8 : l.ch ≠ '/') (n9 : l.ch ≠ '*') (n10 : l.ch ≠ '<')
    (n11 : l.ch ≠ '>') (n12 : l.ch ≠ '(') (n13 : l.ch ≠ ')')
    (n14 : l.ch ≠ Char.ofNat 0x7B) (n15 : l.ch ≠ Char.ofNat 0x7D)
    (n16 : l.ch ≠ '[') (n17 : l.ch ≠ ']') (n18 : l.ch ≠ '\x22') (n19 : l.ch ≠ nul)
    (hid : pyIsAlpha l.ch = true ∨ l.ch = '_') :
    dispatchToken l =
      (Except.ok ⟨lookupIdent (readIdentifier l).1, (readIdentifier l).1,
         (readIdentifier l).2.position⟩, (readIdentifier l).2) := by
  unfold dispatchToken
  rw [if_neg n1, if_neg n2, if_neg n3, if_neg n4, if_neg n5, if_neg n6, if_neg n7,
    if_neg n8, if_neg n9, if_neg n10, if_neg n11, if_neg n12, if_neg n13, if_neg n14,
    if_neg n15, if_neg n16, if_neg n17, if_neg n18, if_neg n19, if_pos hid]

theorem dispatch_int {l : Lexer} (n1 : l.ch ≠ '=') (n2 : l.ch ≠ ';')
    (n3 : l.ch ≠ ',') (n4 : l.ch ≠ ':') (n5 : l.ch ≠ '+') (n6 : l.ch ≠ '-')
    (n7 : l.ch ≠ '!') (n8 : l.ch ≠ '/') (n9 : l.ch ≠ '*') (n10 : l.ch ≠ '<')
    (n11 : l.ch ≠ '>') (n12 : l.ch ≠ '(') (n13 : l.ch ≠ ')')
    (n14 : l.ch ≠ Char.ofNat 0x7B) (n15 : l.ch ≠ Char.ofNat 0x7D)
    (n16 : l.ch ≠ '[') (n17 : l.ch ≠ ']') (n18 : l.ch ≠ '\x22') (n19 : l.ch ≠ nul)
    (hA : pyIsAlpha l.ch = false) (hU : l.ch ≠ '_') (hD : pyIsDigit l.ch = true) :
    dispatchToken l =
      (Except.ok ⟨TokenType.INT, (readNumber l).1, (readNumber l).2.position⟩,
       (readNumber l).2) := by
  unfold dispatchToken
  rw [if_neg n1, if_neg n2, if_neg n3, if_neg n4, if_neg n5, if_neg n6, if_neg n7,
    if_neg n8, if_neg n9, if_neg n10, if_neg n11, if_neg n12, if_neg n13, if_neg n14,
    if_neg n15, if_neg n16, if_neg n17, if_neg n18, if_neg n19,
    if_neg (by simp [hA, hU]), if_pos hD]

theorem dispatch_illegal {l : Lexer} (n1 : l.ch ≠ '=') (n2 : l.ch ≠ ';')
    (n3 : l.ch ≠ ',') (n4 : l.ch ≠ ':') (n5 : l.ch ≠ '+') (n6 : l.ch ≠ '-')
    (n7 : l.ch ≠ '!') (n8 : l.ch ≠ '/') (n9 : l.ch ≠ '*') (n10 : l.ch ≠ '<')
    (n11 : l.ch ≠ '>') (n12 : l.ch ≠ '(') (n13 : l.ch ≠ ')')
    (n14 : l.ch ≠ Char.ofNat 0x7B) (n15 : l.ch ≠ Char.ofNat 0x7D)
    (n16 : l.ch ≠ '[') (n17 : l.ch ≠ ']') (n18 : l.ch ≠ '\x22') (n19 : l.ch ≠ nul)
    (hA : pyIsAlpha l.ch = false) (hU : l.ch ≠ '_') (hD : pyIsDigit l.ch = false) :
    dispatchToken l =
      (Except.ok ⟨TokenType.ILLEGAL, [l.ch], l.position⟩, readChar l) := by
  unfold dispatchToken
  rw [if_neg n1, if_neg n2, if_neg n3, if_neg n4, if_neg n5, if_neg n6, if_neg n7,
    if_neg n8, if_neg n9, if_neg n10, if_neg n11, if_neg n12, if_neg n13, if_neg n14,
    if_neg n15, if_neg n16, if_neg n17, if_neg n18, if_neg n19,
    if_neg (by simp [hA, hU]), if_neg (by simp [hD])]

theorem dispatch_main {input : List Char} {l : Lexer} (hI : LexInv input l)
    (hP : l.position ≤ input.length + 1) :
    LexInv input (dispatchToken l).2 ∧
      (dispatchToken l).2.position ≤ input.length + 1 ∧
      (l.ch = nul ∨ l.position < (dispatchToken l).2.position) := by
  by_cases c1 : l.ch = '='
  · by_cases cp : peekChar l = '='
    · rw [dispatch_eq_pair c1 cp]
      exact twochar_step hI (by rw [c1]; decide) (by rw [cp]; decide)
    · rw [dispatch_assign c1 cp]
      exact punct_step hI (by rw [c1]; decide)
  by_cases c2 : l.ch = ';'
  · rw [dispatch_semicolon c2]
    exact punct_step hI (by rw [c2]; decide)
  by_cases c3 : l.ch = ','
  · rw [dispatch_comma c3]
    exact punct_step hI (by rw [c3]; decide)
  by_cases c4 : l.ch = ':'
  · rw [dispatch_colon c4]
    exact punct_step hI (by rw [c4]; decide)
  by_cases c5 : l.ch = '+'
  · rw [dispatch_plus c5]
    exact punct_step hI (by rw [c5]; decide)
  by_cases c6 : l.ch = '-'
  · rw [dispatch_minus c6]
    exact punct_step hI (by rw [c6]; decide)
  by_cases c7 : l.ch = '!'
  · by_cases cp : peekChar l = '='
    · rw [dispatch_bang_pair c7 cp]
      exact twochar_step hI (by rw [c7]; decide) (by rw [cp]; decide)
    · rw [dispatch_bang c7 cp]
      exact punct_step hI (by rw [c7]; decide)
  by_cases c8 : l.ch = '/'
  · rw [dispatch_slash c8]
    exact punct_step hI (by rw [c8]; decide)
  by_cases c9 : l.ch = '*'
  · rw [dispatch_asterisk c9]
    exact punct_step hI (by rw [c9]; decide)
  by_cases c10 : l.ch = '<'
  · rw [dispatch_lt c10]
    exact punct_step hI (by rw [c10]; decide)
  by_cases c11 : l.ch = '>'
  · rw [dispatch_gt c11]
    exact punct_step hI (by rw [c11]; decide)
  by_cases c12 : l.ch = '('
  · rw [dispatch_lparen c12]
    exact punct_step hI (by rw [c12]; decide)
  by_cases c13 : l.ch = ')'
  · rw [dispatch_rparen c13]
    exact punct_step hI (by rw [c13]; decide)
  by_cases c14 : l.ch = Char.ofNat 0x7B
  · rw [dispatch_lbrace c14]
    exact punct_step hI (by rw [c14]; decide)
  by_cases c15 : l.ch = Char.ofNat 0x7D
  · rw [dispatch_rbrace c15]
    exact punct_step hI (by rw [c15]; decide)
  by_cases c16 : l.ch = '['
  · rw [dispatch_lbracket c16]
    exact punct_step hI (by rw [c16]; decide)
  by_cases c17 : l.ch = ']'
  · rw [dispatch_rbracket c17]
    exact punct_step hI (by rw [c17]; decide)
  by_cases c18 : l.ch = '\x22'
  · rw [dispatch_string c18]
    exact string_step hI (by rw [c18]; decide)
  by_cases c19 : l.ch = nul
  · rw [dispatch_nulch c19]
    exact ⟨hI, hP, Or.inl c19⟩
  by_cases cid : pyIsAlpha l.ch = true ∨ l.ch = '_'
  · rw [dispatch_ident c1 c2 c3 c4 c5 c6 c7 c8 c9 c10 c11 c12 c13 c14 c15 c16 c17
      c18 c19 cid]
    refine loop_step (by decide) hI ?_
    rcases cid with ha | hu
    · simp [identCond, ha]
    · rw [hu]; decide
  by_cases cdg : pyIsDigit l.ch = true
  · have hA : pyIsAlpha l.ch = false :=
      Bool.eq_false_iff.mpr (fun h => cid (Or.inl h))
    have hU : l.ch ≠ '_' := fun he => cid (Or.inr he)
    rw [dispatch_int c1 c2 c3 c4 c5 c6 c7 c8 c9 c10 c11 c12 c13 c14 c15 c16 c17
      c18 c19 hA hU cdg]
    exact loop_step (by decide) hI cdg
  · have hA : pyIsAlpha l.ch = false :=
      Bool.eq_false_iff.mpr (fun h => cid (Or.inl h))
    have hU : l.ch ≠ '_' := fun he => cid (Or.inr he)
    have hD : pyIsDigit l.ch = false := Bool.eq_false_iff.mpr cdg
    rw [dispatch_illegal c1 c2 c3 c4 c5 c6 c7 c8 c9 c10 c11 c12 c13 c14 c15 c16 c17
      c18 c19 hA hU hD]
    exact punct_step hI c19

theorem skip_inv {input : List Char} {s : Lexer} (hI : LexInv input s) :
    LexInv input (skipWhitespace s) := charLoop_inv hI

theorem skip_posmono {input : List Char} {s : Lexer} (hI : LexInv input s) :
    s.position ≤ (skipWhitespace s).position := charLoop_posmono hI

theorem skip_posle {input : List Char} {s : Lexer} (hI : LexInv input s)
    (hle : s.position ≤ input.length) : (skipWhitespace s).position ≤ input.length :=
  charLoop_posle (by decide) hI hle

theorem skip_fix {s : Lexer} (h : isSproutWhitespace s.ch = false) :
    skipWhitespace s = s := charLoop_fix h

theorem nextToken_at_nul {l : Lexer} (h : l.ch = nul) :
    nextToken l = (Except.ok ⟨TokenType.EOF, [], l.position⟩, l) := by
  have hfix : skipWhitespace l = l := skip_fix (by rw [h]; decide)
  show dispatchToken (skipWhitespace l) = _
  rw [hfix, dispatch_nulch h]

theorem nthState_fix {l : Lexer} (h : l.ch = nul) : ∀ n, nthState l n = l := by
  intro n
  induction n with
  | zero => rfl
  | succ n ih =>
    show nthState (nextToken l).2 n = l
    rw [nextToken_at_nul h]
    exact ih

theorem nthState_succ_back : ∀ (n : Nat) (l : Lexer),
    nthState l (n + 1) = (nextToken (nthState l n)).2 := by
  intro n
  induction n with
  | zero => intro l; rfl
  | succ n ih =>
    intro l
    simp only [nthState]
    exact ih (nextToken l).2

theorem lookupIdent_mem (xs : List Char) :
    lookupIdent xs = TokenType.FUNCTION ∨ lookupIdent xs = TokenType.LET ∨
    lookupIdent xs = TokenType.TRUE ∨ lookupIdent xs = TokenType.FALSE ∨
    lookupIdent xs = TokenType.IF ∨ lookupIdent xs = TokenType.ELSE ∨
    lookupIdent xs = TokenType.RETURN ∨ lookupIdent xs = TokenType.IDENT := by
  unfold lookupIdent
  split_ifs <;> simp

theorem lookupIdent_ne_eof (xs : List Char) : lookupIdent xs ≠ TokenType.EOF := by
  rcases lookupIdent_mem xs with h | h | h | h | h | h | h | h <;> rw [h] <;> decide

theorem lookupIdent_ne_illegal (xs : List Char) :
    lookupIdent xs ≠ TokenType.ILLEGAL := by
  rcases lookupIdent_mem xs with h | h | h | h | h | h | h | h <;> rw [h] <;> decide

theorem nextToken_main {input : List Char} {s : Lexer} (hI : LexInv input s)
    (hP : s.position ≤ input.length + 1) :
    LexInv input (nextToken s).2 ∧ (nextToken s).2.position ≤ input.length + 1 ∧
      ((skipWhitespace s).ch = nul ∨ s.position < (nextToken s).2.position) := by
  have hIs : LexInv input (skipWhitespace s) := skip_inv hI
  have hmono : s.position ≤ (skipWhitespace s).position := skip_posmono hI
  have hPs : (skipWhitespace s).position ≤ input.length + 1 := by
    by_cases hle : s.position ≤ input.length
    · have := skip_posle hI hle
      omega
    · have hch : s.ch = nul := lexInv_ch_nul hI (by omega)
      rw [skip_fix (by rw [hch]; decide)]
      omega
  show LexInv input (dispatchToken (skipWhitespace s)).2 ∧
    (dispatchToken (skipWhitespace s)).2.position ≤ input.length + 1 ∧
    ((skipWhitespace s).ch = nul ∨
      s.position < (dispatchToken (skipWhitespace s)).2.position)
  obtain ⟨a, b, c⟩ := dispatch_main hIs hPs
  refine ⟨a, b, ?_⟩
  rcases c with h | h
  · exact Or.inl h
  · exact Or.inr (by omega)

theorem dispatch_eof_only {l : Lexer} {t : Token}
    (h : (dispatchToken l).1 = Except.ok t) (ht : t.type = TokenType.EOF) :
    l.ch = nul := by
  by_cases c1 : l.ch = '='
  · by_cases cp : peekChar l = '='
    · rw [dispatch_eq_pair c1 cp] at h
      injection h with h2
      rw [← h2] at ht
      exact absurd (show TokenType.EQ = TokenType.EOF from ht) (by decide)
    · rw [dispatch_assign c1 cp] at h
      injection h with h2
      rw [← h2] at ht
      exact absurd (show TokenType.ASSIGN = TokenType.EOF from ht) (by decide)
  by_cases c2 : l.ch = ';'
  · rw [dispatch_semicolon c2] at h
    injection h with h2
    rw [← h2] at ht
    exact absurd (show TokenType.SEMICOLON = TokenType.EOF from ht) (by decide)
  by_cases c3 : l.ch = ','
  · rw [dispatch_comma c3] at h
    injection h with h2
    rw [← h2] at ht
    exact absurd (show TokenType.COMMA = TokenType.EOF from ht) (by decide)
  by_cases c4 : l.ch = ':'
  · rw [dispatch_colon c4] at h
    injection h with h2
    rw [← h2] at ht
    exact absurd (show TokenType.COLON = TokenType.EOF from ht) (by decide)
  by_cases c5 : l.ch = '+'
  · rw [dispatch_plus c5] at h
    injection h with h2
    rw [← h2] at ht
    exact absurd (show TokenType.PLUS = TokenType.EOF from ht) (by decide)
  by_cases c6 : l.ch = '-'
  · rw [dispatch_minus c6] at h
    injection h with h2
    rw [← h2] at ht
    exact absurd (show TokenType.MINUS = TokenType.EOF from ht) (by decide)
  by_cases c7 : l.ch = '!'
  · by_cases cp : peekChar l = '='
    · rw [dispatch_bang_pair c7 cp] at h
      injection h with h2
      rw [← h2] at ht
      exact absurd (show TokenType.NOT_EQ = TokenType.EOF from ht) (by decide)
    · rw [dispatch_bang c7 cp] at h
      injection h with h2
      rw [← h2] at ht
      exact absurd (show TokenType.BANG = TokenType.EOF from ht) (by decide)
  by_cases c8 : l.ch = '/'
  · rw [dispatch_slash c8] at h
    injection h with h2
    rw [← h2] at ht
    exact absurd (show TokenType.SLASH = TokenType.EOF from ht) (by decide)
  by_cases c9 : l.ch = '*'
  · rw [dispatch_asterisk c9] at h
    injection h with h2
    rw [← h2] at ht
    exact absurd (show TokenType.ASTERISK = TokenType.EOF from ht) (by decide)
  by_cases c10 : l.ch = '<'
  · rw [dispatch_lt c10] at h
    injection h with h2
    rw [← h2] at ht
    exact absurd (show TokenType.LT = TokenType.EOF from ht) (by decide)
  by_cases c11 : l.ch = '>'
  · rw [dispatch_gt c11] at h
    injection h with h2
    rw [← h2] at ht
    exact absurd (show TokenType.GT = TokenType.EOF from ht) (by decide)
  by_cases c12 : l.ch = '('
  · rw [dispatch_lparen c12] at h
    injection h with h2
    rw [← h2] at ht
    exact absurd (show TokenType.LPAREN = TokenType.EOF from ht) (by decide)
  by_cases c13 : l.ch = ')'
  · rw [dispatch_rparen c13] at h
    injection h with h2
    rw [← h2] at ht
    exact absurd (show TokenType.RPAREN = TokenType.EOF from ht) (by decide)
  by_cases c14 : l.ch = Char.ofNat 0x7B
  · rw [dispatch_lbrace c14] at h
    injection h with h2
    rw [← h2] at ht
    exact absurd (show TokenType.LBRACE = TokenType.EOF from ht) (by decide)
  by_cases c15 : l.ch = Char.ofNat 0x7D
  · rw [dispatch_rbrace c15] at h
    injection h with h2
    rw [← h2] at ht
    exact absurd (show TokenType.RBRACE = TokenType.EOF from ht) (by decide)
  by_cases c16 : l.ch = '['
  · rw [dispatch_lbracket c16] at h
    injection h with h2
    rw [← h2] at ht
    exact absurd (show TokenType.LBRACKET = TokenType.EOF from ht) (by decide)
  by_cases c17 : l.ch = ']'
  · rw [dispatch_rbracket c17] at h
    injection h with h2
    rw [← h2] at ht
    exact absurd (show TokenType.RBRACKET = TokenType.EOF from ht) (by decide)
  by_cases c18 : l.ch = '\x22'
  · rw [dispatch_string c18] at h
    cases hq : (readString l).1 with
    | error e =>
      rw [hq] at h
      simp [Except.map] at h
    | ok lv =>
      rw [hq] at h
      simp only [Except.map] at h
      injection h with h2
      rw [← h2] at ht
      exact absurd (show TokenType.STRING = TokenType.EOF from ht) (by decide)
  by_cases c19 : l.ch = nul
  · exact c19
  by_cases cid : pyIsAlpha l.ch = true ∨ l.ch = '_'
  · rw [dispatch_ident c1 c2 c3 c4 c5 c6 c7 c8 c9 c10 c11 c12 c13 c14 c15 c16 c17
      c18 c19 cid] at h
    injection h with h2
    rw [← h2] at ht
    exact absurd
      (show lookupIdent (readIdentifier l).1 = TokenType.EOF from ht)
      (lookupIdent_ne_eof _)
  by_cases cdg : pyIsDigit l.ch = true
  · have hA : pyIsAlpha l.ch = false :=
      Bool.eq_false_iff.mpr (fun hx => cid (Or.inl hx))
    have hU : l.ch ≠ '_' := fun he => cid (Or.inr he)
    rw [dispatch_int c1 c2 c3 c4 c5 c6 c7 c8 c9 c10 c11 c12 c13 c14 c15 c16 c17
      c18 c19 hA hU cdg] at h
    injection h with h2
    rw [← h2] at ht
    exact absurd (show TokenType.INT = TokenType.EOF from ht) (by decide)
  · have hA : pyIsAlpha l.ch = false :=
      Bool.eq_false_iff.mpr (fun hx => cid (Or.inl hx))
    have hU : l.ch ≠ '_' := fun he => cid (Or.inr he)
    have hD : pyIsDigit l.ch = false := Bool.eq_false_iff.mpr cdg
    rw [dispatch_illegal c1 c2 c3 c4 c5 c6 c7 c8 c9 c10 c11 c12 c13 c14 c15 c16 c17
      c18 c19 hA hU hD] at h
    injection h with h2
    rw [← h2] at ht
    exact absurd (show TokenType.ILLEGAL = TokenType.EOF from ht) (by decide)

theorem reach_eof (input : List Char) : ∀ (k : Nat) (l : Lexer), LexInv input l →
    l.position ≤ input.length + 1 → input.length ≤ l.position + k →
    ∃ p, (nextToken (nthState l k)).1 = Except.ok ⟨TokenType.EOF, [], p⟩ := by
  intro k
  induction k with
  | zero =>
    intro l hI hP hle
    have hch : l.ch = nul := lexInv_ch_nul hI (by omega)
    refine ⟨l.position, ?_⟩
    rw [show nthState l 0 = l from rfl, nextToken_at_nul hch]
  | succ k ih =>
    intro l hI hP hle
    obtain ⟨a, b, c⟩ := nextToken_main hI hP
    rcases c with hnul | hprog
    · have h2 : (nextToken l).2 = skipWhitespace l := by
        show (dispatchToken (skipWhitespace l)).2 = _
        rw [dispatch_nulch hnul]
      show ∃ p, (nextToken (nthState (nextToken l).2 k)).1 =
        Except.ok ⟨TokenType.EOF, [], p⟩
      rw [h2, nthState_fix hnul k, nextToken_at_nul hnul]
      exact ⟨(skipWhitespace l).position, rfl⟩
    · show ∃ p, (nextToken (nthState (nextToken l).2 k)).1 =
        Except.ok ⟨TokenType.EOF, [], p⟩
      exact ih (nextToken l).2 a b (by omega)

theorem states_inv (input : List Char) : ∀ (n : Nat),
    LexInv input (nthState (mkLexer input) n) ∧
    (nthState (mkLexer input) n).position ≤ input.length + 1 := by
  intro n
  induction n with
  | zero =>
    refine ⟨lexInv_readChar rfl, ?_⟩
    show (mkLexer input).position ≤ input.length + 1
    rw [show (mkLexer input).position = 0 from rfl]
    omega
  | succ n ih =>
    rw [nthState_succ_back]
    obtain ⟨a, b⟩ := ih
    obtain ⟨a2, b2, -⟩ := nextToken_main a b
    exact ⟨a2, b2⟩

/-- C1: the claim says `next_token` never raises and returns every error as
an illegal-kind token.  The code violates this: on the four-character input
`"\x"` the raw string span is backslash-x, and
`bytes(literal, "utf-8").decode("unicode_escape")` raises
`UnicodeDecodeError` (truncated `\xXX` escape), so `next_token` raises
instead of returning a token.  This theorem evaluates the embedded
`next_token` at that failing input to the raised-error outcome. -/
theorem C1_next_token_raises_on_truncated_hex_escape :
    (nextToken (mkLexer ['\x22', '\\', 'x', '\x22'])).1 =
      Except.error "truncated hex escape" := rfl

/-- C2 counterexample: the claim `position ≤ input length` fails.  On the
one-character input consisting of a lone opening quote, the first
`next_token` call scans an unterminated string: the scan loop stops at the
sentinel with `position = 1`, and the unconditional closing-quote
`_read_char` then advances `position` to `2 > 1`. -/
theorem C2_counterexample :
    ¬((nthState (mkLexer [Char.ofNat 0x22]) 1).position ≤
        (List.length [Char.ofNat 0x22])) := by decide

/-- C2 (amended): for every input, the cursor never exceeds `length + 1`
(the claim's bound `length` is exceeded by exactly one, only via the
closing-quote advance of an unterminated string literal), and repeated
`next_token` calls reach an end-of-input token after at most `length + 1`
calls. -/
theorem C2_eof_reached_and_cursor_bounded (input : List Char) :
    (∀ n : Nat, (nthState (mkLexer input) n).position ≤ input.length + 1) ∧
    ∃ p, (nextToken (nthState (mkLexer input) input.length)).1 =
      Except.ok ⟨TokenType.EOF, [], p⟩ := by
  constructor
  · intro n
    exact (states_inv input n).2
  · exact reach_eof input input.length (mkLexer input) (lexInv_readChar rfl)
      (by rw [show (mkLexer input).position = 0 from rfl]; omega)
      (by rw [show (mkLexer input).position = 0 from rfl]; omega)

/-- C5: once `next_token` has returned an end-of-input token, the scanner
state is fixed and every subsequent call returns the end-of-input token
again, for any number of further calls, without raising. -/
theorem C5_eof_idempotent (s : Lexer) (t : Token)
    (h : (nextToken s).1 = Except.ok t) (ht : t.type = TokenType.EOF) :
    ∀ n : Nat, nextToken (nthState (nextToken s).2 n) =
      (Except.ok ⟨TokenType.EOF, [], (nextToken s).2.position⟩, (nextToken s).2) := by
  have hch : (skipWhitespace s).ch = nul := dispatch_eof_only h ht
  have h2 : (nextToken s).2 = skipWhitespace s := by
    show (dispatchToken (skipWhitespace s)).2 = _
    rw [dispatch_nulch hch]
  intro n
  rw [h2, nthState_fix hch n, nextToken_at_nul hch]

theorem C5_witness :
    ((nextToken (mkLexer [])).1 = Except.ok ⟨TokenType.EOF, [], 0⟩) ∧
    nextToken (nthState (nextToken (mkLexer [])).2 5) =
      (Except.ok ⟨TokenType.EOF, [], (nextToken (mkLexer [])).2.position⟩,
       (nextToken (mkLexer [])).2) :=
  ⟨rfl, C5_eof_idempotent (mkLexer []) ⟨TokenType.EOF, [], 0⟩ rfl rfl 5⟩

/-- C6: `lookup_ident` maps exactly the seven case-sensitive spellings
`fn let true false if else return` to their dedicated keyword kinds and
every other string to the generic identifier kind; in particular `"func"`
classifies as an identifier, not as the function keyword. -/
theorem C6_keyword_classification (s : List Char) :
    ((lookupIdent s = TokenType.FUNCTION ↔ s = "fn".toList) ∧
     (lookupIdent s = TokenType.LET ↔ s = "let".toList) ∧
     (lookupIdent s = TokenType.TRUE ↔ s = "true".toList) ∧
     (lookupIdent s = TokenType.FALSE ↔ s = "false".toList) ∧
     (lookupIdent s = TokenType.IF ↔ s = "if".toList) ∧
     (lookupIdent s = TokenType.ELSE ↔ s = "else".toList) ∧
     (lookupIdent s = TokenType.RETURN ↔ s = "return".toList)) ∧
    (s ∉ ["fn".toList, "let".toList, "true".toList, "false".toList, "if".toList,
       "else".toList, "return".toList] → lookupIdent s = TokenType.IDENT) ∧
    lookupIdent "func".toList = TokenType.IDENT ∧
    (nextToken (mkLexer "func".toList)).1 =
      Except.ok ⟨TokenType.IDENT, "func".toList, 4⟩ := by
  refine ⟨?_, ?_, by rfl, by rfl⟩
  · unfold lookupIdent
    split_ifs with h1 h2 h3 h4 h5 h6 h7
    · subst h1; decide
    · subst h2; decide
    · subst h3; decide
    · subst h4; decide
    · subst h5; decide
    · subst h6; decide
    · subst h7; decide
    · exact ⟨iff_of_false (by decide) h1, iff_of_false (by decide) h2,
        iff_of_false (by decide) h3, iff_of_false (by decide) h4,
        iff_of_false (by decide) h5, iff_of_false (by decide) h6,
        iff_of_false (by decide) h7⟩
  · intro hs
    simp only [List.mem_cons, List.not_mem_nil, or_false, not_or] at hs
    obtain ⟨m1, m2, m3, m4, m5, m6, m7⟩ := hs
    unfold lookupIdent
    rw [if_neg m1, if_neg m2, if_neg m3, if_neg m4, if_neg m5, if_neg m6, if_neg m7]

theorem C6_witness :
    ("xs".toList ∉ ["fn".toList, "let".toList, "true".toList, "false".toList,
       "if".toList, "else".toList, "return".toList]) ∧
    lookupIdent "xs".toList = TokenType.IDENT :=
  ⟨by decide, (C6_keyword_classification "xs".toList).2.1 (by decide)⟩

/-- C10: token offsets are not uniformly start-of-token or end-of-token
across kinds: a semicolon token at offset 0 records position 0 (the offset
of its own character, i.e. the start), while the identifier `ab` and the
integer `12`, both spanning offsets 0-1, record position 2 (one past the
last consumed character, i.e. the end). -/
theorem C10_offsets_inconsistent :
    (nextToken (mkLexer [';'])).1 = Except.ok ⟨TokenType.SEMICOLON, [';'], 0⟩ ∧
    (nextToken (mkLexer ['a', 'b'])).1 =
      Except.ok ⟨TokenType.IDENT, ['a', 'b'], 2⟩ ∧
    (nextToken (mkLexer ['1', '2'])).1 =
      Except.ok ⟨TokenType.INT, ['1', '2'], 2⟩ :=
  ⟨rfl, rfl, rfl⟩

/-- C3 counterexample: the claim says a backslash followed by a character
outside the closed five-character escape set is left in the literal
unchanged.  On the input `"\a"` the code's `unicode_escape` decoding
instead interprets backslash-a as the single BEL character U+0007, not the
two unchanged characters backslash and `a`. -/
theorem C3_counterexample :
    (nextToken (mkLexer ['\x22', '\\', 'a', '\x22'])).1 =
      Except.ok ⟨TokenType.STRING, [Char.ofNat 0x07], 4⟩ ∧
    [Char.ofNat 0x07] ≠ ['\\', 'a'] :=
  ⟨rfl, by decide⟩

/-- C3 (amended): the five documented escapes (quote, backslash, `n`, `t`,
`r`) decode to their logical single characters, but because decoding
delegates to Python's general `unicode_escape` codec, further escapes are
also interpreted (backslash-a becomes the single BEL character), and only a
backslash followed by a character with no meaning in that codec (such as
`q`) is left in the literal unchanged. -/
theorem C3_escape_decoding :
    (nextToken (mkLexer ['\x22', '\\', 'n', '\x22'])).1 =
      Except.ok ⟨TokenType.STRING, ['\n'], 4⟩ ∧
    (nextToken (mkLexer ['\x22', '\\', 't', '\x22'])).1 =
      Except.ok ⟨TokenType.STRING, ['\t'], 4⟩ ∧
    (nextToken (mkLexer ['\x22', '\\', 'r', '\x22'])).1 =
      Except.ok ⟨TokenType.STRING, ['\x0D'], 4⟩ ∧
    (nextToken (mkLexer ['\x22', '\\', '\\', '\x22'])).1 =
      Except.ok ⟨TokenType.STRING, ['\\'], 4⟩ ∧
    (nextToken (mkLexer ['\x22', '\\', '\x22', '\x22'])).1 =
      Except.ok ⟨TokenType.STRING, ['\x22'], 4⟩ ∧
    (nextToken (mkLexer ['\x22', '\\', 'a', '\x22'])).1 =
      Except.ok ⟨TokenType.STRING, [Char.ofNat 0x07], 4⟩ ∧
    (nextToken (mkLexer ['\x22', '\\', 'q', '\x22'])).1 =
      Except.ok ⟨TokenType.STRING, ['\\', 'q'], 4⟩ :=
  ⟨rfl, rfl, rfl, rfl, rfl, rfl, rfl⟩

/-- C4: after whitespace skipping, a current `=` yields an equal token if
and only if the lookahead character is `=` (consuming both characters),
and otherwise an assign token consuming one character; a current `!`
yields a not-equal token if and only if the lookahead is `=`, and
otherwise a bang token; and the input `"10 == 10;"` lexes to
integer `10`, equal, integer `10`, semicolon, end-of-input — never two
assign tokens. -/
theorem C4_two_char_lookahead :
    (∀ s : Lexer,
      ((skipWhitespace s).ch = '=' →
        (((nextToken s).1 =
            Except.ok ⟨TokenType.EQ, ['=', '='],
              (readChar (skipWhitespace s)).position⟩) ↔
          peekChar (skipWhitespace s) = '=') ∧
        (peekChar (skipWhitespace s) ≠ '=' →
          (nextToken s).1 =
            Except.ok ⟨TokenType.ASSIGN, ['='], (skipWhitespace s).position⟩ ∧
          (nextToken s).2 = readChar (skipWhitespace s)) ∧
        (peekChar (skipWhitespace s) = '=' →
          (nextToken s).2 = readChar (readChar (skipWhitespace s)))) ∧
      ((skipWhitespace s).ch = '!' →
        (((nextToken s).1 =
            Except.ok ⟨TokenType.NOT_EQ, ['!', '='],
              (readChar (skipWhitespace s)).position⟩) ↔
          peekChar (skipWhitespace s) = '=') ∧
        (peekChar (skipWhitespace s) ≠ '=' →
          (nextToken s).1 =
            Except.ok ⟨TokenType.BANG, ['!'], (skipWhitespace s).position⟩ ∧
          (nextToken s).2 = readChar (skipWhitespace s)))) ∧
    lexResults (mkLexer "10 == 10;".toList) 5 =
      [Except.ok ⟨TokenType.INT, ['1', '0'], 2⟩,
       Except.ok ⟨TokenType.EQ, ['=', '='], 4⟩,
       Except.ok ⟨TokenType.INT, ['1', '0'], 8⟩,
       Except.ok ⟨TokenType.SEMICOLON, [';'], 8⟩,
       Except.ok ⟨TokenType.EOF, [], 9⟩] := by
  refine ⟨?_, by rfl⟩
  intro s
  constructor
  · intro hch
    refine ⟨⟨?_, ?_⟩, ?_, ?_⟩
    · intro hres
      by_contra hpk
      rw [show nextToken s = dispatchToken (skipWhitespace s) from rfl,
        dispatch_assign hch hpk] at hres
      injection hres with h2
      injection h2 with h3 h4 h5
      exact absurd h3 (by decide)
    · intro hpk
      rw [show nextToken s = dispatchToken (skipWhitespace s) from rfl,
        dispatch_eq_pair hch hpk, hch, readChar_ch_eq_peek, hpk]
    · intro hpk
      rw [show nextToken s = dispatchToken (skipWhitespace s) from rfl,
        dispatch_assign hch hpk, hch]
      exact ⟨rfl, rfl⟩
    · intro hpk
      rw [show nextToken s = dispatchToken (skipWhitespace s) from rfl,
        dispatch_eq_pair hch hpk]
  · intro hch
    refine ⟨⟨?_, ?_⟩, ?_⟩
    · intro hres
      by_contra hpk
      rw [show nextToken s = dispatchToken (skipWhitespace s) from rfl,
        dispatch_bang hch hpk] at hres
      injection hres with h2
      injection h2 with h3 h4 h5
      exact absurd h3 (by decide)
    · intro hpk
      rw [show nextToken s = dispatchToken (skipWhitespace s) from rfl,
        dispatch_bang_pair hch hpk, hch, readChar_ch_eq_peek, hpk]
    · intro hpk
      rw [show nextToken s = dispatchToken (skipWhitespace s) from rfl,
        dispatch_bang hch hpk, hch]
      exact ⟨rfl, rfl⟩

theorem C4_witness :
    ((skipWhitespace (mkLexer ['=', '='])).ch = '=') ∧
    (peekChar (skipWhitespace (mkLexer ['=', '='])) = '=') ∧
    (nextToken (mkLexer ['=', '='])).1 =
      Except.ok ⟨TokenType.EQ, ['=', '='], 1⟩ ∧
    ((skipWhitespace (mkLexer ['=', ';'])).ch = '=') ∧
    (peekChar (skipWhitespace (mkLexer ['=', ';'])) ≠ '=') ∧
    (nextToken (mkLexer ['=', ';'])).1 =
      Except.ok ⟨TokenType.ASSIGN, ['='], 0⟩ :=
  ⟨rfl, rfl,
   (((C4_two_char_lookahead.1 (mkLexer ['=', '='])).1 rfl).1).mpr rfl,
   rfl, by decide,
   ((((C4_two_char_lookahead.1 (mkLexer ['=', ';'])).1 rfl).2.1) (by decide)).1⟩

/-- C7 counterexample: the claim says no error is raised for an
unterminated string.  On the three-character unterminated input `"\x`
(opening quote, backslash, `x`, no closing quote), the scan runs to
end-of-input and the `unicode_escape` decode of the partial span
backslash-x raises (truncated `\xXX` escape), so `next_token` raises
rather than returning a string token. -/
theorem C7_counterexample :
    (nextToken (mkLexer ['\x22', '\\', 'x'])).1 =
      Except.error "truncated hex escape" := rfl

/-- C7 (amended): for a string literal whose opening quote is never
matched before end-of-input (and whose input contains no embedded NUL,
which the scanner would treat as end-of-input), `next_token` returns an
ordinary string token — no distinct error kind — whose literal is the
`unicode_escape` decoding of exactly the text from just after the opening
quote to the end of the input, provided that decoding succeeds; when the
partial text contains a malformed escape, the decode raises instead
(see the counterexample). -/
theorem C7_unterminated_string (input : List Char) (s : Lexer)
    (hI : LexInv input s)
    (hq : (skipWhitespace s).ch = '\x22')
    (hun : (readStringLoop (readChar (skipWhitespace s))).ch = nul)
    (hnn : nul ∉ input)
    (v : List Char)
    (hdec : unicodeEscapeDecode (utf8Encode
      (pySlice input ((skipWhitespace s).position + 1) input.length)) =
      Except.ok v) :
    (nextToken s).1 = Except.ok ⟨TokenType.STRING, v, input.length + 1⟩ := by
  have hIs : LexInv input (skipWhitespace s) := skip_inv hI
  have hlt : (skipWhitespace s).position < input.length :=
    lexInv_pos_lt hIs (by rw [hq]; decide)
  have hI1 : LexInv input (readChar (skipWhitespace s)) := lexInv_readChar hIs.1
  have hpos1 : (readChar (skipWhitespace s)).position =
      (skipWhitespace s).position + 1 := hIs.2.1
  have hend : (readStringLoop (readChar (skipWhitespace s))).position =
      input.length :=
    strLoop_end_pos hI1 (by omega) hun hnn
  have hinv2 : LexInv input (readStringLoop (readChar (skipWhitespace s))) :=
    strLoop_inv hI1
  have hr1 : (readString (skipWhitespace s)).1 = Except.ok v := by
    show unicodeEscapeDecode (utf8Encode
      (pySlice (readChar (skipWhitespace s)).input_text
        (readChar (skipWhitespace s)).position
        (readStringLoop (readChar (skipWhitespace s))).position)) = _
    rw [readChar_input, hIs.1, hpos1, hend]
    exact hdec
  have hp3 : (readString (skipWhitespace s)).2.position = input.length + 1 := by
    show (readChar (readStringLoop (readChar (skipWhitespace s)))).position = _
    rw [readChar_pos, hinv2.2.1, hend]
  rw [show nextToken s = dispatchToken (skipWhitespace s) from rfl,
    dispatch_string hq]
  show (readString (skipWhitespace s)).1.map
    (fun lit => Token.mk TokenType.STRING lit
      (readString (skipWhitespace s)).2.position) = _
  rw [hr1, hp3]
  rfl

theorem C7_witness :
    ((skipWhitespace (mkLexer ['\x22', 'a', 'b'])).ch = '\x22') ∧
    ((readStringLoop (readChar (skipWhitespace (mkLexer ['\x22', 'a', 'b'])))).ch =
      nul) ∧
    (nextToken (mkLexer ['\x22', 'a', 'b'])).1 =
      Except.ok ⟨TokenType.STRING, ['a', 'b'], 4⟩ :=
  ⟨rfl, rfl,
   C7_unterminated_string ['\x22', 'a', 'b'] (mkLexer ['\x22', 'a', 'b'])
     (lexInv_readChar rfl) rfl rfl (by decide) ['a', 'b'] rfl⟩

/-- C8: when the current character after whitespace skipping matches no
dispatch case — not an operator or punctuation character, not a quote, not
the end sentinel, not an identifier start (Unicode-alphabetic or
underscore), not a digit — `next_token` returns an illegal-kind token whose
literal is exactly that one character, and the state advances past it by
one `_read_char`; `"@"` lexes to `[illegal "@", end-of-input]`, and tokens
after an illegal character are still produced (`"@;"`). -/
theorem C8_illegal_fallback :
    (∀ s : Lexer,
      (skipWhitespace s).ch ∉ ['=', ';', ',', ':', '+', '-', '!', '/', '*', '<',
        '>', '(', ')', Char.ofNat 0x7B, Char.ofNat 0x7D, '[', ']', '\x22', nul] →
      pyIsAlpha (skipWhitespace s).ch = false →
      (skipWhitespace s).ch ≠ '_' →
      pyIsDigit (skipWhitespace s).ch = false →
      (nextToken s).1 =
        Except.ok ⟨TokenType.ILLEGAL, [(skipWhitespace s).ch],
          (skipWhitespace s).position⟩ ∧
      (nextToken s).2 = readChar (skipWhitespace s)) ∧
    lexResults (mkLexer ['@']) 2 =
      [Except.ok ⟨TokenType.ILLEGAL, ['@'], 0⟩,
       Except.ok ⟨TokenType.EOF, [], 1⟩] ∧
    lexResults (mkLexer ['@', ';']) 3 =
      [Except.ok ⟨TokenType.ILLEGAL, ['@'], 0⟩,
       Except.ok ⟨TokenType.SEMICOLON, [';'], 1⟩,
       Except.ok ⟨TokenType.EOF, [], 2⟩] := by
  refine ⟨?_, by rfl, by rfl⟩
  intro s hmem hA hU hD
  simp only [List.mem_cons, List.not_mem_nil, or_false, not_or] at hmem
  obtain ⟨m1, m2, m3, m4, m5, m6, m7, m8, m9, m10, m11, m12, m13, m14, m15, m16,
    m17, m18, m19⟩ := hmem
  rw [show nextToken s = dispatchToken (skipWhitespace s) from rfl,
    dispatch_illegal m1 m2 m3 m4 m5 m6 m7 m8 m9 m10 m11 m12 m13 m14 m15 m16 m17
      m18 m19 hA hU hD]
  exact ⟨rfl, rfl⟩

theorem C8_witness :
    ((skipWhitespace (mkLexer ['@'])).ch ∉ ['=', ';', ',', ':', '+', '-', '!',
      '/', '*', '<', '>', '(', ')', Char.ofNat 0x7B, Char.ofNat 0x7D, '[', ']',
      '\x22', nul]) ∧
    (nextToken (mkLexer ['@'])).1 = Except.ok ⟨TokenType.ILLEGAL, ['@'], 0⟩ :=
  ⟨by decide,
   (C8_illegal_fallback.1 (mkLexer ['@']) (by decide) rfl (by decide) rfl).1⟩

/-- C9 counterexample: the claim says identifier classification is
ASCII-only and a non-ASCII letter in dispatch position falls through to
the illegal-token fallback.  The code instead uses Python's Unicode-aware
`str.isalpha`: the single-character input `é` (U+00E9) lexes as an
identifier token, not an illegal token. -/
theorem C9_counterexample :
    (nextToken (mkLexer [Char.ofNat 0xE9])).1 =
      Except.ok ⟨TokenType.IDENT, [Char.ofNat 0xE9], 1⟩ ∧
    TokenType.IDENT ≠ TokenType.ILLEGAL :=
  ⟨rfl, by decide⟩

/-- C9 (amended): identifier classification follows Python's Unicode-aware
`str.isalpha`/`str.isdigit`, not ASCII alone: `é` (U+00E9) is alphabetic
and lexes as an identifier, and among characters matching no
operator/punctuation/quote/sentinel case, the illegal fallback is taken
exactly when the character is not alphabetic (in the Unicode sense), not an
underscore, and not a digit. -/
theorem C9_unicode_identifier_classification :
    pyIsAlpha (Char.ofNat 0xE9) = true ∧
    (nextToken (mkLexer [Char.ofNat 0xE9])).1 =
      Except.ok ⟨TokenType.IDENT, [Char.ofNat 0xE9], 1⟩ ∧
    (∀ s : Lexer,
      (skipWhitespace s).ch ∉ ['=', ';', ',', ':', '+', '-', '!', '/', '*', '<',
        '>', '(', ')', Char.ofNat 0x7B, Char.ofNat 0x7D, '[', ']', '\x22', nul] →
      ((∃ t, (nextToken s).1 = Except.ok t ∧ t.type = TokenType.ILLEGAL) ↔
        (pyIsAlpha (skipWhitespace s).ch = false ∧ (skipWhitespace s).ch ≠ '_' ∧
         pyIsDigit (skipWhitespace s).ch = false))) := by
  refine ⟨rfl, rfl, ?_⟩
  intro s hmem
  simp only [List.mem_cons, List.not_mem_nil, or_false, not_or] at hmem
  obtain ⟨m1, m2, m3, m4, m5, m6, m7, m8, m9, m10, m11, m12, m13, m14, m15, m16,
    m17, m18, m19⟩ := hmem
  constructor
  · rintro ⟨t, hres, htt⟩
    by_cases cid : pyIsAlpha (skipWhitespace s).ch = true ∨ (skipWhitespace s).ch = '_'
    · exfalso
      rw [show nextToken s = dispatchToken (skipWhitespace s) from rfl,
        dispatch_ident m1 m2 m3 m4 m5 m6 m7 m8 m9 m10 m11 m12 m13 m14 m15 m16 m17
          m18 m19 cid] at hres
      injection hres with h2
      rw [← h2] at htt
      exact absurd
        (show lookupIdent (readIdentifier (skipWhitespace s)).1 =
          TokenType.ILLEGAL from htt)
        (lookupIdent_ne_illegal _)
    by_cases cdg : pyIsDigit (skipWhitespace s).ch = true
    · exfalso
      have hA : pyIsAlpha (skipWhitespace s).ch = false :=
        Bool.eq_false_iff.mpr (fun hx => cid (Or.inl hx))
      have hU : (skipWhitespace s).ch ≠ '_' := fun he => cid (Or.inr he)
      rw [show nextToken s = dispatchToken (skipWhitespace s) from rfl,
        dispatch_int m1 m2 m3 m4 m5 m6 m7 m8 m9 m10 m11 m12 m13 m14 m15 m16 m17
          m18 m19 hA hU cdg] at hres
      injection hres with h2
      rw [← h2] at htt
      exact absurd (show TokenType.INT = TokenType.ILLEGAL from htt) (by decide)
    · exact ⟨Bool.eq_false_iff.mpr (fun hx => cid (Or.inl hx)),
        fun he => cid (Or.inr he), Bool.eq_false_iff.mpr cdg⟩
  · rintro ⟨hA, hU, hD⟩
    refine ⟨⟨TokenType.ILLEGAL, [(skipWhitespace s).ch],
      (skipWhitespace s).position⟩, ?_, rfl⟩
    rw [show nextToken s = dispatchToken (skipWhitespace s) from rfl,
      dispatch_illegal m1 m2 m3 m4 m5 m6 m7 m8 m9 m10 m11 m12 m13 m14 m15 m16 m17
        m18 m19 hA hU hD]

theorem C9_witness :
    ((skipWhitespace (mkLexer [Char.ofNat 0xE9])).ch ∉ ['=', ';', ',', ':', '+',
      '-', '!', '/', '*', '<', '>', '(', ')', Char.ofNat 0x7B, Char.ofNat 0x7D,
      '[', ']', '\x22', nul]) ∧
    ¬∃ t, (nextToken (mkLexer [Char.ofNat 0xE9])).1 = Except.ok t ∧
      t.type = TokenType.ILLEGAL := by
  refine ⟨by decide, ?_⟩
  intro hex
  have h := (C9_unicode_identifier_classification.2.2 (mkLexer [Char.ofNat 0xE9])
    (by decide)).mp hex
  exact absurd h.1 (by decide)
